import Mathlib

/-!
Verification of `libs/langchain/langchain/schema/runnable/configurable.py`.

The Python module is shallowly embedded: Python dicts become association
lists in insertion order, Python runtime values become `PyVal`, raised
exceptions become `Except PyErr`, and object identity (`is`) is modelled by
a numeric object id carried by every executable unit.
-/

set_option autoImplicit false

namespace Configurable

/-- Python runtime values relevant to this module: `None`, booleans,
integers and strings. -/
inductive PyVal where
  | none : PyVal
  | bool : Bool → PyVal
  | int : Int → PyVal
  | str : String → PyVal
  deriving DecidableEq, Repr

/-- Python truthiness (`bool(v)`): `None`, `False`, `0` and `""` are falsy. -/
def PyVal.truthy : PyVal → Bool
  | .none => false
  | .bool b => b
  | .int n => n != 0
  | .str s => s != ""

/-- Python `str(v)`, as used by f-string interpolation in error messages. -/
def PyVal.pystr : PyVal → String
  | .none => "None"
  | .bool true => "True"
  | .bool false => "False"
  | .int n => toString n
  | .str s => s

/-- A raised Python exception, reduced to its message text. -/
structure PyErr where
  msg : String
  deriving DecidableEq, Repr

/-! ### Python dicts as association lists in insertion order -/

/-- `d.get(k)` / `d[k]`: first (and, for a real dict, only) binding of `k`. -/
def dictGet {α : Type} : List (String × α) → String → Option α
  | [], _ => Option.none
  | (k', v) :: rest, k => if k' = k then some v else dictGet rest k

/-- `d[k] = v`: replace the binding of `k` in place if present, else append. -/
def dictSet {α : Type} : List (String × α) → String → α → List (String × α)
  | [], k, v => [(k, v)]
  | (k', v') :: rest, k, v =>
      if k' = k then (k, v) :: rest else (k', v') :: dictSet rest k v

/-- `k in d`. -/
def dictContains {α : Type} (d : List (String × α)) (k : String) : Bool :=
  (dictGet d k).isSome

/-- `list(d.keys())`. -/
def dictKeys {α : Type} (d : List (String × α)) : List String :=
  d.map Prod.fst

/-- `{**a, **b}`: `a` updated with every binding of `b` in order. -/
def dictMerge {α : Type} (a b : List (String × α)) : List (String × α) :=
  b.foldl (fun acc kv => dictSet acc kv.1 kv.2) a

/-! ### Configs, descriptors and executable units -/

/-- The per-call `RunnableConfig` dict, reduced to the keys this module
reads: the `"configurable"` sub-dict and the `"max_concurrency"` hint. -/
structure RunnableConfig where
  configurable : Option (List (String × PyVal)) := Option.none
  max_concurrency : Option Nat := Option.none
  deriving DecidableEq, Repr

/-- The empty dict `{}` used as the default config. -/
def emptyConfig : RunnableConfig := {}

/-- `(config or {}).get("configurable", {})`. -/
def configurableOf (config : Option RunnableConfig) : List (String × PyVal) :=
  ((config.getD emptyConfig).configurable).getD []

/-- Type annotations as they appear in config specs: either the
`Union[Literal[k1], ..., Literal["default"]]` built by the alternatives
selector, or an annotation opaque to this module. -/
inductive PyAnnot where
  | union : List String → PyAnnot
  | named : String → PyAnnot
  deriving DecidableEq, Repr

/-- `ConfigurableField` descriptor (external collaborator): id, display
name, description and type annotation. -/
structure ConfigurableField where
  id : String
  name : Option String := Option.none
  description : Option String := Option.none
  annotation : Option PyAnnot := Option.none
  deriving DecidableEq, Repr

/-- `ConfigurableFieldSpec` descriptor (external collaborator): a declared
configurable axis together with its default value. -/
structure ConfigurableFieldSpec where
  id : String
  name : Option String := Option.none
  description : Option String := Option.none
  annotation : Option PyAnnot := Option.none
  default : PyVal := PyVal.none
  deriving DecidableEq, Repr

/-- How a batch call refers to its config argument:
`Optional[Union[RunnableConfig, List[RunnableConfig]]]`. -/
inductive BatchConfigArg where
  | noConfig : BatchConfigArg
  | one : RunnableConfig → BatchConfigArg
  | many : List RunnableConfig → BatchConfigArg
  deriving DecidableEq, Repr

/-- One position of a batch result: a value, or (when `return_exceptions`
is set) a captured exception. -/
inductive BatchItem where
  | val : PyVal → BatchItem
  | exc : PyErr → BatchItem
  deriving DecidableEq, Repr

/-- An `ExecutableUnit` (a `Runnable`): external collaborator. `oid` models
Python object identity (`is`); `attrs` is the constructor-level attribute
dict returned by `.dict()`; `config_specs` its own declared axes; `run` its
`invoke` and `batchRun` its native `batch` primitive. -/
structure ExecUnit where
  oid : Nat
  attrs : List (String × PyVal)
  config_specs : List ConfigurableFieldSpec
  run : PyVal → Option RunnableConfig → Except PyErr PyVal
  batchRun : List PyVal → BatchConfigArg → Bool → Except PyErr (List BatchItem)

/-! ### `get_config_list` (broadcast of the batch config argument) -/

/-- Error raised when a list config does not match the number of inputs. -/
def configLengthErr (got expected : Nat) : PyErr :=
  PyErr.mk ("config list of length " ++ toString got
    ++ " does not match inputs of length " ++ toString expected)

/-- Modelled from the spec: `get_config_list` lives in
`langchain/schema/runnable/config.py`, which is not part of the sources;
the spec's batch step 1 says to broadcast `config_or_list` to one
configuration per input — "replicate a single config, or require equal
length if a list is given". -/
def get_config_list (config : BatchConfigArg) (length : Nat) :
    Except PyErr (List RunnableConfig) :=
  match config with
  | .many cs =>
      if cs.length = length then Except.ok cs
      else Except.error (configLengthErr cs.length length)
  | .one c => Except.ok (List.replicate length c)
  | .noConfig => Except.ok (List.replicate length emptyConfig)

/-! ### `DynamicRunnable` -/

/-- The abstract `DynamicRunnable`: a bound unit plus the `_prepare`
resolution method supplied by the concrete subclass. Resolution either
produces the unit to delegate to or raises. -/
structure DynamicRunnable where
  bound : ExecUnit
  _prepare : Option RunnableConfig → Except PyErr ExecUnit

/-- `DynamicRunnable.invoke`: `self._prepare(config).invoke(input, config)`. -/
def DynamicRunnable.invoke (self : DynamicRunnable) (input : PyVal)
    (config : Option RunnableConfig) : Except PyErr PyVal :=
  match self._prepare config with
  | Except.error e => Except.error e
  | Except.ok unit => unit.run input config

/-- The comprehension `[self._prepare(c) for c in configs]`: the first
resolution failure aborts the whole batch call. -/
def prepareAll (prep : Option RunnableConfig → Except PyErr ExecUnit) :
    List RunnableConfig → Except PyErr (List ExecUnit)
  | [] => Except.ok []
  | c :: cs =>
      match prep (some c) with
      | Except.error e => Except.error e
      | Except.ok p =>
          match prepareAll prep cs with
          | Except.error e => Except.error e
          | Except.ok ps => Except.ok (p :: ps)

/-- The local `invoke` closure of `DynamicRunnable.batch`: with
`return_exceptions` the exception is captured as the item, otherwise it
propagates. -/
def batchInvoke (return_exceptions : Bool) (bound : ExecUnit) (input : PyVal)
    (config : RunnableConfig) : Except PyErr BatchItem :=
  if return_exceptions then
    match bound.run input (some config) with
    | Except.ok v => Except.ok (BatchItem.val v)
    | Except.error e => Except.ok (BatchItem.exc e)
  else
    match bound.run input (some config) with
    | Except.ok v => Except.ok (BatchItem.val v)
    | Except.error e => Except.error e

/-- `executor.map(invoke, prepared, inputs, configs)` collected
positionally (`map` truncates at the shortest sequence); under the
sequential abstraction of the worker pool the single-input special case of
the source coincides with this function on singletons. -/
def invokeAll (return_exceptions : Bool) :
    List ExecUnit → List PyVal → List RunnableConfig →
    Except PyErr (List BatchItem)
  | p :: ps, x :: xs, c :: cs =>
      match batchInvoke return_exceptions p x c with
      | Except.error e => Except.error e
      | Except.ok item =>
          match invokeAll return_exceptions ps xs cs with
          | Except.error e => Except.error e
          | Except.ok items => Except.ok (item :: items)
  | _, _, _ => Except.ok []

/-- `DynamicRunnable.batch`: broadcast the config argument, resolve every
input's unit, delegate wholesale to the bound unit's own batch primitive
when every resolved unit is identical (by `oid`) to the bound unit, and
otherwise fan out the individual invocations. -/
def DynamicRunnable.batch (self : DynamicRunnable) (inputs : List PyVal)
    (config : BatchConfigArg) (return_exceptions : Bool) :
    Except PyErr (List BatchItem) :=
  match get_config_list config inputs.length with
  | Except.error e => Except.error e
  | Except.ok configs =>
      match prepareAll self._prepare configs with
      | Except.error e => Except.error e
      | Except.ok prepared =>
          if prepared.all (fun p => p.oid == self.bound.oid) then
            self.bound.batchRun inputs config return_exceptions
          else if inputs.isEmpty then
            Except.ok []
          else
            invokeAll return_exceptions prepared inputs configs

/-! ### `RunnableConfigurableFields` -/

/-- `RunnableConfigurableFields`: the bound unit, the map from internal
field name to its `ConfigurableField` descriptor, and `self.bound.__class__`
— the bound unit's constructor, carried explicitly because the embedding
keeps classes as functions (the spec's external `rebuild` capability). -/
structure RunnableConfigurableFields where
  bound : ExecUnit
  fields : List (String × ConfigurableField)
  cls : List (String × PyVal) → ExecUnit

/-- `{spec.id: (key, spec) for key, spec in self.fields.items()}`. -/
def specsById (fields : List (String × ConfigurableField)) :
    List (String × (String × ConfigurableField)) :=
  fields.foldl (fun acc kv => dictSet acc kv.2.id (kv.1, kv.2)) []

/-- The dict comprehension `{specs_by_id[k][0]: v for k, v in
config.get("configurable", {}).items() if k in specs_by_id}`, written with
its accumulator explicit. -/
def matchedOverridesAux (sbi : List (String × (String × ConfigurableField)))
    (acc : List (String × PyVal)) :
    List (String × PyVal) → List (String × PyVal)
  | [] => acc
  | (k, v) :: rest =>
      match dictGet sbi k with
      | some kp => matchedOverridesAux sbi (dictSet acc kp.1 v) rest
      | Option.none => matchedOverridesAux sbi acc rest

/-- The `configurable` dict computed by
`RunnableConfigurableFields._prepare`. -/
def matchedOverrides (fields : List (String × ConfigurableField))
    (conf : List (String × PyVal)) : List (String × PyVal) :=
  matchedOverridesAux (specsById fields) [] conf

/-- `RunnableConfigurableFields._prepare`: rebuild the bound unit from its
full attribute dict with the matched fields replaced when at least one
declared field id is configured, else return the bound unit itself. -/
def RunnableConfigurableFields._prepare (self : RunnableConfigurableFields)
    (config : Option RunnableConfig) : ExecUnit :=
  match matchedOverrides self.fields (configurableOf config) with
  | [] => self.bound
  | k :: ks => self.cls (dictMerge self.bound.attrs (k :: ks))

/-- `RunnableConfigurableFields` as a `DynamicRunnable` (its `_prepare`
never raises). -/
def RunnableConfigurableFields.toDynamic (self : RunnableConfigurableFields) :
    DynamicRunnable :=
  DynamicRunnable.mk self.bound (fun c => Except.ok (self._prepare c))

/-! ### `RunnableConfigurableAlternatives` -/

/-- `RunnableConfigurableAlternatives`: the selector descriptor `which`,
the bound (default) unit, and the registered alternatives in registration
order. -/
structure RunnableConfigurableAlternatives where
  which : ConfigurableField
  bound : ExecUnit
  alternatives : List (String × ExecUnit)

/-- `config.get("configurable", {}).get(self.which.id)`. -/
def selectorValue (self : RunnableConfigurableAlternatives)
    (config : Option RunnableConfig) : Option PyVal :=
  dictGet (configurableOf config) self.which.id

/-- `RunnableConfigurableAlternatives._prepare`: a falsy or absent selector
value yields the bound unit; a value that is a registered key yields that
alternative exactly as registered; any other value raises. Only a string
can be a member of the string-keyed alternatives dict. -/
def RunnableConfigurableAlternatives._prepare
    (self : RunnableConfigurableAlternatives)
    (config : Option RunnableConfig) : Except PyErr ExecUnit :=
  match selectorValue self config with
  | Option.none => Except.ok self.bound
  | some v =>
      if v.truthy = false then Except.ok self.bound
      else
        match v with
        | PyVal.str s =>
            match dictGet self.alternatives s with
            | some alt => Except.ok alt
            | Option.none =>
                Except.error (PyErr.mk ("Unknown alternative: " ++ s))
        | _ => Except.error (PyErr.mk ("Unknown alternative: " ++ v.pystr))

/-- `RunnableConfigurableAlternatives` as a `DynamicRunnable`. -/
def RunnableConfigurableAlternatives.toDynamic
    (self : RunnableConfigurableAlternatives) : DynamicRunnable :=
  DynamicRunnable.mk self.bound self._prepare

/-- The comprehension `[s for alt in self.alternatives.values() for s in
alt.config_specs]`. -/
def joinSpecs : List ExecUnit → List ConfigurableFieldSpec
  | [] => []
  | u :: us => u.config_specs ++ joinSpecs us

/-- `RunnableConfigurableAlternatives.config_specs`: the selector's own
spec (value space the alternative keys plus `"default"`, defaulting to
`"default"`), then the bound unit's specs, then every alternative's specs
in registration order. -/
def RunnableConfigurableAlternatives.config_specs
    (self : RunnableConfigurableAlternatives) : List ConfigurableFieldSpec :=
  ({ id := self.which.id
     name := self.which.name
     description := self.which.description
     annotation :=
       some (PyAnnot.union (dictKeys self.alternatives ++ ["default"]))
     default := PyVal.str "default" } :: self.bound.config_specs)
    ++ joinSpecs (self.alternatives.map Prod.snd)

/-! ### The restriction of a config to recognized keys (for the
unrecognized-key claims) -/

/-- The same config with its `"configurable"` dict restricted to the keys
satisfying `keep`. -/
def restrictConfigurable (keep : String → Bool)
    (config : Option RunnableConfig) : Option RunnableConfig :=
  some { configurable := some ((configurableOf config).filter (fun kv => keep kv.1))
         max_concurrency := (config.getD emptyConfig).max_concurrency }

/-! ### Dict lemmas -/

theorem dictGet_set_self {α : Type} (d : List (String × α)) (k : String) (v : α) :
    dictGet (dictSet d k v) k = some v := by
  induction d with
  | nil => simp [dictGet, dictSet]
  | cons kv rest ih =>
      obtain ⟨k', v'⟩ := kv
      by_cases h : k' = k
      · simp [dictGet, dictSet, h]
      · simp [dictGet, dictSet, h, ih]

theorem dictGet_set_ne {α : Type} (d : List (String × α)) (k k' : String) (v : α)
    (h : k' ≠ k) : dictGet (dictSet d k v) k' = dictGet d k' := by
  have h' : ¬ k = k' := fun hk => h hk.symm
  induction d with
  | nil => simp [dictGet, dictSet, h']
  | cons kv rest ih =>
      obtain ⟨k₀, v₀⟩ := kv
      by_cases h₀ : k₀ = k
      · subst h₀
        simp [dictGet, dictSet, h']
      · simp [dictGet, dictSet, h₀, ih]

theorem dictGet_eq_none_iff {α : Type} (d : List (String × α)) (k : String) :
    dictGet d k = Option.none ↔ ∀ kv ∈ d, (kv : String × α).1 ≠ k := by
  induction d with
  | nil => simp [dictGet]
  | cons kv rest ih =>
      obtain ⟨k', v'⟩ := kv
      by_cases h : k' = k
      · simp [dictGet, h]
      · simp [dictGet, h, ih]

theorem mem_keys_of_mem_keys_set {α : Type} (d : List (String × α))
    (k k'' : String) (v : α) (h : k'' ∈ dictKeys (dictSet d k v)) :
    k'' ∈ dictKeys d ∨ k'' = k := by
  induction d with
  | nil =>
      right
      simpa [dictSet, dictKeys] using h
  | cons kv rest ih =>
      obtain ⟨k', v'⟩ := kv
      by_cases h₀ : k' = k
      · subst h₀
        left
        simpa [dictSet, dictKeys] using h
      · simp only [dictSet, if_neg h₀, dictKeys, List.map_cons, List.mem_cons] at h
        rcases h with h | h
        · exact Or.inl (List.mem_cons.2 (Or.inl h))
        · rcases ih h with h1 | h1
          · exact Or.inl (List.mem_cons.2 (Or.inr h1))
          · exact Or.inr h1

/-- Keys of a dict are pairwise distinct (every real Python dict satisfies
this; the dicts this module builds satisfy it by construction). -/
def NodupKeys {α : Type} (d : List (String × α)) : Prop :=
  (dictKeys d).Nodup

theorem nodupKeys_set {α : Type} (d : List (String × α)) (k : String) (v : α)
    (h : NodupKeys d) : NodupKeys (dictSet d k v) := by
  induction d with
  | nil => simp [NodupKeys, dictSet, dictKeys]
  | cons kv rest ih =>
      obtain ⟨k', v'⟩ := kv
      simp only [NodupKeys, dictKeys, List.map_cons, List.nodup_cons] at h
      by_cases h₀ : k' = k
      · subst h₀
        simpa [dictSet, NodupKeys, dictKeys] using h
      · simp only [dictSet, if_neg h₀, NodupKeys, dictKeys, List.map_cons,
          List.nodup_cons]
        constructor
        · intro hmem
          rcases mem_keys_of_mem_keys_set rest k k' v hmem with h1 | h1
          · exact h.1 h1
          · exact h₀ h1
        · exact ih h.2

theorem dictMerge_cons {α : Type} (a : List (String × α)) (k : String) (v : α)
    (rest : List (String × α)) :
    dictMerge a ((k, v) :: rest) = dictMerge (dictSet a k v) rest := rfl

theorem dictGet_merge_of_none {α : Type} (a b : List (String × α)) (k : String)
    (h : dictGet b k = Option.none) :
    dictGet (dictMerge a b) k = dictGet a k := by
  induction b generalizing a with
  | nil => simp [dictMerge]
  | cons kv rest ih =>
      obtain ⟨k', v'⟩ := kv
      simp only [dictGet] at h
      by_cases h₀ : k' = k
      · rw [if_pos h₀] at h
        exact absurd h (by simp)
      · rw [if_neg h₀] at h
        rw [dictMerge_cons, ih (dictSet a k' v') h,
          dictGet_set_ne a k' k v' (fun hk => h₀ hk.symm)]

theorem dictGet_merge_of_some {α : Type} (a b : List (String × α)) (k : String)
    (v : α) (hnd : NodupKeys b) (h : dictGet b k = some v) :
    dictGet (dictMerge a b) k = some v := by
  induction b generalizing a with
  | nil => simp [dictGet] at h
  | cons kv rest ih =>
      obtain ⟨k', v'⟩ := kv
      simp only [NodupKeys, dictKeys, List.map_cons, List.nodup_cons] at hnd
      simp only [dictGet] at h
      rw [dictMerge_cons]
      by_cases h₀ : k' = k
      · rw [if_pos h₀] at h
        have hrest : dictGet rest k = Option.none := by
          rw [dictGet_eq_none_iff]
          intro kv2 hkv hk
          have hmem : kv2.1 ∈ List.map Prod.fst rest :=
            List.mem_map_of_mem Prod.fst hkv
          rw [hk, ← h₀] at hmem
          exact hnd.1 hmem
        rw [dictGet_merge_of_none (dictSet a k' v') rest k hrest, ← h₀,
          dictGet_set_self]
        exact h
      · rw [if_neg h₀] at h
        exact ih (dictSet a k' v') hnd.2 h

theorem dictGet_filter_key {α : Type} (l : List (String × α)) (k : String) :
    dictGet (l.filter (fun kv => kv.1 == k)) k = dictGet l k := by
  induction l with
  | nil => rfl
  | cons kv rest ih =>
      obtain ⟨k', v'⟩ := kv
      by_cases h : k' = k
      · simp [List.filter_cons, h, dictGet]
      · have hb : ((k', v').1 == k) = false := by simpa using h
        simp [List.filter_cons, hb, dictGet, h, ih]

/-! ### Helper lemmas about resolution and batching -/

theorem dictSet_ne_nil {α : Type} (d : List (String × α)) (k : String) (v : α) :
    dictSet d k v ≠ [] := by
  cases d with
  | nil => simp [dictSet]
  | cons kv rest =>
      obtain ⟨k', v'⟩ := kv
      by_cases h : k' = k <;> simp [dictSet, h]

theorem matchedOverridesAux_of_no_match
    (sbi : List (String × (String × ConfigurableField)))
    (conf : List (String × PyVal)) (acc : List (String × PyVal))
    (h : ∀ kv ∈ conf, dictGet sbi (kv : String × PyVal).1 = Option.none) :
    matchedOverridesAux sbi acc conf = acc := by
  induction conf generalizing acc with
  | nil => rfl
  | cons kv rest ih =>
      obtain ⟨k, v⟩ := kv
      have hk : dictGet sbi k = Option.none := h (k, v) (List.mem_cons_self _ _)
      simp only [matchedOverridesAux, hk]
      exact ih acc (fun kv2 hkv => h kv2 (List.mem_cons_of_mem _ hkv))

theorem specsById_get_none (fields : List (String × ConfigurableField))
    (k : String) (h : ∀ p ∈ fields, (p : String × ConfigurableField).2.id ≠ k) :
    dictGet (specsById fields) k = Option.none := by
  have main : ∀ (fs : List (String × ConfigurableField))
      (acc : List (String × (String × ConfigurableField))),
      (∀ p ∈ fs, (p : String × ConfigurableField).2.id ≠ k) →
      dictGet acc k = Option.none →
      dictGet (fs.foldl (fun acc kv => dictSet acc kv.2.id (kv.1, kv.2)) acc) k
        = Option.none := by
    intro fs
    induction fs with
    | nil => intro acc _ hacc; exact hacc
    | cons p rest ih =>
        intro acc hfs hacc
        simp only [List.foldl_cons]
        refine ih (dictSet acc p.2.id (p.1, p.2))
          (fun q hq => hfs q (List.mem_cons_of_mem _ hq)) ?_
        rw [dictGet_set_ne acc p.2.id k (p.1, p.2)
          (fun hk => hfs p (List.mem_cons_self _ _) hk.symm)]
        exact hacc
  exact main fields [] h rfl

theorem matchedOverridesAux_filter
    (sbi : List (String × (String × ConfigurableField)))
    (conf : List (String × PyVal)) (acc : List (String × PyVal)) :
    matchedOverridesAux sbi acc
      (conf.filter (fun kv => (dictGet sbi kv.1).isSome)) =
    matchedOverridesAux sbi acc conf := by
  induction conf generalizing acc with
  | nil => rfl
  | cons kv rest ih =>
      obtain ⟨k, v⟩ := kv
      cases hk : dictGet sbi k with
      | none =>
          have hb : ((dictGet sbi (k, v).1).isSome) = false := by simp [hk]
          simp only [List.filter_cons, hb, if_false, Bool.false_eq_true,
            matchedOverridesAux, hk]
          exact ih acc
      | some kp =>
          have hb : ((dictGet sbi (k, v).1).isSome) = true := by simp [hk]
          simp only [List.filter_cons, hb, if_true, matchedOverridesAux, hk]
          exact ih (dictSet acc kp.1 v)

theorem nodupKeys_matchedOverridesAux
    (sbi : List (String × (String × ConfigurableField)))
    (conf : List (String × PyVal)) (acc : List (String × PyVal))
    (h : NodupKeys acc) : NodupKeys (matchedOverridesAux sbi acc conf) := by
  induction conf generalizing acc with
  | nil => exact h
  | cons kv rest ih =>
      obtain ⟨k, v⟩ := kv
      cases hk : dictGet sbi k with
      | none =>
          simp only [matchedOverridesAux, hk]
          exact ih acc h
      | some kp =>
          simp only [matchedOverridesAux, hk]
          exact ih (dictSet acc kp.1 v) (nodupKeys_set acc kp.1 v h)

theorem matchedOverridesAux_ne_nil
    (sbi : List (String × (String × ConfigurableField)))
    (conf : List (String × PyVal)) (acc : List (String × PyVal))
    (h : acc ≠ [] ∨ ∃ kv ∈ conf, (dictGet sbi (kv : String × PyVal).1).isSome) :
    matchedOverridesAux sbi acc conf ≠ [] := by
  induction conf generalizing acc with
  | nil =>
      rcases h with h | ⟨kv, hm, _⟩
      · exact h
      · cases hm
  | cons kv rest ih =>
      obtain ⟨k, v⟩ := kv
      cases hk : dictGet sbi k with
      | none =>
          simp only [matchedOverridesAux, hk]
          refine ih acc ?_
          rcases h with h | ⟨kv2, hm, hs⟩
          · exact Or.inl h
          · rcases List.mem_cons.1 hm with rfl | hm2
            · rw [hk] at hs
              cases hs
            · exact Or.inr ⟨kv2, hm2, hs⟩
      | some kp =>
          simp only [matchedOverridesAux, hk]
          exact ih (dictSet acc kp.1 v) (Or.inl (dictSet_ne_nil acc kp.1 v))

theorem get_config_list_length (config : BatchConfigArg) (n : Nat)
    (configs : List RunnableConfig)
    (h : get_config_list config n = Except.ok configs) :
    configs.length = n := by
  cases config with
  | noConfig =>
      simp only [get_config_list, Except.ok.injEq] at h
      subst h
      exact List.length_replicate n emptyConfig
  | one c =>
      simp only [get_config_list, Except.ok.injEq] at h
      subst h
      exact List.length_replicate n c
  | many cs =>
      simp only [get_config_list] at h
      by_cases hl : cs.length = n
      · rw [if_pos hl] at h
        simp only [Except.ok.injEq] at h
        subst h
        exact hl
      · rw [if_neg hl] at h
        cases h

/-- The captured form of one individual `invoke` outcome. -/
def captureItem : Except PyErr PyVal → BatchItem
  | Except.ok v => BatchItem.val v
  | Except.error e => BatchItem.exc e

/-- Reference semantics written from the spec's words for the fallback
path: perform the individual `invoke(x_i, c_i)` calls one after another in
input order, propagating the first failure. -/
def individualInvokeSeq (dyn : DynamicRunnable) :
    List (PyVal × RunnableConfig) → Except PyErr (List BatchItem)
  | [] => Except.ok []
  | pc :: rest =>
      match dyn.invoke pc.1 (some pc.2) with
      | Except.error e => Except.error e
      | Except.ok v =>
          match individualInvokeSeq dyn rest with
          | Except.error e => Except.error e
          | Except.ok items => Except.ok (BatchItem.val v :: items)

theorem invokeAll_eq_individual (dyn : DynamicRunnable) :
    ∀ (configs : List RunnableConfig) (prepared : List ExecUnit)
      (inputs : List PyVal),
      prepareAll dyn._prepare configs = Except.ok prepared →
      invokeAll true prepared inputs configs =
        Except.ok ((inputs.zip configs).map
          (fun pc => captureItem (dyn.invoke pc.1 (some pc.2)))) ∧
      invokeAll false prepared inputs configs =
        individualInvokeSeq dyn (inputs.zip configs) := by
  intro configs
  induction configs with
  | nil =>
      intro prepared inputs h
      simp only [prepareAll, Except.ok.injEq] at h
      subst h
      cases inputs with
      | nil => exact ⟨rfl, rfl⟩
      | cons x xs => exact ⟨rfl, rfl⟩
  | cons c cs ih =>
      intro prepared inputs h
      simp only [prepareAll] at h
      cases hp : dyn._prepare (some c) with
      | error e => rw [hp] at h; cases h
      | ok p =>
          rw [hp] at h
          cases hps : prepareAll dyn._prepare cs with
          | error e => rw [hps] at h; cases h
          | ok ps =>
              rw [hps] at h
              simp only [Except.ok.injEq] at h
              subst h
              cases inputs with
              | nil => exact ⟨rfl, rfl⟩
              | cons x xs =>
                  obtain ⟨ht, hf⟩ := ih ps xs hps
                  have hinv : dyn.invoke x (some c) = p.run x (some c) := by
                    simp [DynamicRunnable.invoke, hp]
                  constructor
                  · show invokeAll true (p :: ps) (x :: xs) (c :: cs) = _
                    simp only [List.zip_cons_cons, List.map_cons, hinv]
                    cases hr : p.run x (some c) with
                    | ok v =>
                        simp [invokeAll, batchInvoke, hr, ht, captureItem]
                    | error e =>
                        simp [invokeAll, batchInvoke, hr, ht, captureItem]
                  · show invokeAll false (p :: ps) (x :: xs) (c :: cs) =
                        individualInvokeSeq dyn ((x :: xs).zip (c :: cs))
                    simp only [List.zip_cons_cons]
                    simp only [invokeAll, individualInvokeSeq, hinv, hf,
                      batchInvoke]
                    cases hr : p.run x (some c) with
                    | ok v =>
                        cases individualInvokeSeq dyn (xs.zip cs) <;> simp
                    | error e => simp

theorem dictGet_set_isSome {α : Type} (d : List (String × α)) (k k' : String)
    (v : α) (h : k' = k ∨ (dictGet d k).isSome = true) :
    (dictGet (dictSet d k' v) k).isSome = true := by
  rcases h with rfl | h
  · rw [dictGet_set_self]
    rfl
  · by_cases hk : k' = k
    · subst hk
      rw [dictGet_set_self]
      rfl
    · rw [dictGet_set_ne d k' k v (fun he => hk he.symm)]
      exact h

theorem specsById_mem_isSome (fields : List (String × ConfigurableField))
    (k : String)
    (h : ∃ p ∈ fields, (p : String × ConfigurableField).2.id = k) :
    (dictGet (specsById fields) k).isSome = true := by
  have main : ∀ (fs : List (String × ConfigurableField))
      (acc : List (String × (String × ConfigurableField))),
      ((∃ p ∈ fs, (p : String × ConfigurableField).2.id = k) ∨
        (dictGet acc k).isSome = true) →
      (dictGet (fs.foldl (fun acc kv => dictSet acc kv.2.id (kv.1, kv.2)) acc) k).isSome
        = true := by
    intro fs
    induction fs with
    | nil =>
        intro acc hh
        rcases hh with ⟨p, hp, _⟩ | hh
        · cases hp
        · exact hh
    | cons q rest ih =>
        intro acc hh
        simp only [List.foldl_cons]
        apply ih (dictSet acc q.2.id (q.1, q.2))
        rcases hh with ⟨p, hp, hid⟩ | hh
        · rcases List.mem_cons.1 hp with rfl | hp2
          · exact Or.inr (dictGet_set_isSome acc k p.2.id (p.1, p.2) (Or.inl hid))
          · exact Or.inl ⟨p, hp2, hid⟩
        · exact Or.inr (dictGet_set_isSome acc k q.2.id (q.1, q.2) (Or.inr hh))
  exact main fields [] (Or.inl h)

theorem joinSpecs_length (us : List ExecUnit) :
    (joinSpecs us).length = (us.map (fun u => u.config_specs.length)).sum := by
  induction us with
  | nil => rfl
  | cons u rest ih => simp [joinSpecs, ih]

/-! ### Concrete instances used by the closed witness theorems -/

/-- A concrete bound unit with a `temperature` attribute; echoes its
input. -/
def unitC : ExecUnit where
  oid := 1
  attrs := [("temperature", PyVal.int 7)]
  config_specs := []
  run := fun x _ => Except.ok x
  batchRun := fun xs _ _ => Except.ok (xs.map BatchItem.val)

/-- A concrete alternative unit that always produces `"A"`. -/
def unitA : ExecUnit where
  oid := 2
  attrs := []
  config_specs := []
  run := fun _ _ => Except.ok (PyVal.str "A")
  batchRun := fun xs _ _ => Except.ok (xs.map BatchItem.val)

/-- A concrete alternative unit whose invocation always fails. -/
def unitB : ExecUnit where
  oid := 3
  attrs := []
  config_specs := []
  run := fun _ _ => Except.error (PyErr.mk "boom")
  batchRun := fun xs _ _ => Except.ok (xs.map BatchItem.val)

/-- A concrete alternatives resolver: selector id `"engine"`, default
`unitC`, alternatives `{"fast": unitA, "slow": unitB}`. -/
def altEx : RunnableConfigurableAlternatives where
  which := { id := "engine" }
  bound := unitC
  alternatives := [("fast", unitA), ("slow", unitB)]

/-- `altEx` seen through the shared dispatch layer. -/
def dynAlt : DynamicRunnable := altEx.toDynamic

/-- A concrete fields resolver exposing `temperature`. -/
def fieldsEx : RunnableConfigurableFields where
  bound := unitC
  fields := [("temperature", { id := "temperature" })]
  cls := fun m =>
    { oid := 9
      attrs := m
      config_specs := []
      run := fun x _ => Except.ok x
      batchRun := fun xs _ _ => Except.ok (xs.map BatchItem.val) }

/-- `{"configurable": {"engine": "fast"}}`. -/
def cfgFast : RunnableConfig where
  configurable := some [("engine", PyVal.str "fast")]

/-- `{"configurable": {"engine": "bogus"}}`. -/
def cfgBogus : RunnableConfig where
  configurable := some [("engine", PyVal.str "bogus")]

/-- `{"configurable": {"engine": 0}}` — a falsy selector value. -/
def cfgZero : RunnableConfig where
  configurable := some [("engine", PyVal.int 0)]

/-- `{"configurable": {"temperature": 9}}`. -/
def cfgTemp : RunnableConfig where
  configurable := some [("temperature", PyVal.int 9)]

/-! ### Claims about `_prepare` -/

/-- Claim C1: for every alternatives resolver, `_prepare` is a three-way
case split on the selector value read from the config's `"configurable"`
mapping under the selector's id: an absent or empty value yields the bound
unit; a value equal to a registered alternative key yields exactly that
registered alternative, with nothing applied on top; any other value
raises an unrecognized-alternative error whose message names the
offending value. -/
theorem alternatives_prepare_case_split
    (self : RunnableConfigurableAlternatives) (config : Option RunnableConfig) :
    (selectorValue self config = Option.none →
      self._prepare config = Except.ok self.bound) ∧
    (∀ v, selectorValue self config = some v → v.truthy = false →
      self._prepare config = Except.ok self.bound) ∧
    (∀ s alt, selectorValue self config = some (PyVal.str s) → s ≠ "" →
      dictGet self.alternatives s = some alt →
      self._prepare config = Except.ok alt) ∧
    (∀ v, selectorValue self config = some v → v.truthy = true →
      (∀ s, v = PyVal.str s → dictGet self.alternatives s = Option.none) →
      self._prepare config =
        Except.error (PyErr.mk ("Unknown alternative: " ++ v.pystr))) := by
  refine ⟨?_, ?_, ?_, ?_⟩
  · intro h
    simp [RunnableConfigurableAlternatives._prepare, h]
  · intro v hv ht
    simp [RunnableConfigurableAlternatives._prepare, hv, ht]
  · intro s alt hv hs halt
    have ht : PyVal.truthy (PyVal.str s) = true := by
      simp [PyVal.truthy]
      exact hs
    simp [RunnableConfigurableAlternatives._prepare, hv, ht, halt]
  · intro v hv ht hnone
    cases v with
    | str s =>
        have hd := hnone s rfl
        simp [RunnableConfigurableAlternatives._prepare, hv, ht, hd, PyVal.pystr]
    | none => simp [PyVal.truthy] at ht
    | bool b =>
        cases b with
        | false => simp [PyVal.truthy] at ht
        | true => simp [RunnableConfigurableAlternatives._prepare, hv, ht]
    | int n => simp [RunnableConfigurableAlternatives._prepare, hv, ht]

/-- Witness for C1: selecting `"fast"` on the concrete resolver yields the
registered alternative `unitA`. -/
theorem alternatives_prepare_case_split_app :
    altEx._prepare (some cfgFast) = Except.ok unitA :=
  (alternatives_prepare_case_split altEx (some cfgFast)).2.2.1 "fast" unitA
    rfl (by decide) rfl

/-- Claim C10: a falsy selector value present in the configuration is
treated exactly like an absent one — `_prepare` returns the bound unit and
agrees with resolution under no config at all — and the
unrecognized-alternative error arises only for truthy values that are not
registered alternative keys. -/
theorem alternatives_prepare_falsy_like_absent :
    (∀ (self : RunnableConfigurableAlternatives)
        (config : Option RunnableConfig) (v : PyVal),
      selectorValue self config = some v → v.truthy = false →
      self._prepare config = Except.ok self.bound ∧
      self._prepare config = self._prepare Option.none) ∧
    (∀ (self : RunnableConfigurableAlternatives)
        (config : Option RunnableConfig) (e : PyErr),
      self._prepare config = Except.error e →
      ∃ v, selectorValue self config = some v ∧ v.truthy = true ∧
        ∀ s, v = PyVal.str s →
          dictGet self.alternatives s = Option.none) := by
  constructor
  · intro self config v hv ht
    have h1 : self._prepare config = Except.ok self.bound := by
      simp [RunnableConfigurableAlternatives._prepare, hv, ht]
    have h2 : self._prepare Option.none = Except.ok self.bound := by
      simp [RunnableConfigurableAlternatives._prepare, selectorValue,
        configurableOf, emptyConfig, dictGet]
    exact ⟨h1, h1.trans h2.symm⟩
  · intro self config e he
    simp only [RunnableConfigurableAlternatives._prepare] at he
    cases hv : selectorValue self config with
    | none =>
        rw [hv] at he
        cases he
    | some v =>
        rw [hv] at he
        cases ht : v.truthy with
        | false => simp [ht] at he
        | true =>
            simp only [ht, Bool.true_eq_false, if_false] at he
            refine ⟨v, rfl, ht, ?_⟩
            intro s hs
            subst hs
            cases hd : dictGet self.alternatives s with
            | none => rfl
            | some alt => simp [hd] at he

/-- Witness for C10: the falsy selector value `0` resolves to the bound
unit. -/
theorem alternatives_prepare_falsy_like_absent_app :
    altEx._prepare (some cfgZero) = Except.ok altEx.bound :=
  (alternatives_prepare_falsy_like_absent.1 altEx (some cfgZero)
    (PyVal.int 0) rfl rfl).1

/-- Claim C5: for a fields resolver, if the config is absent, has no
`"configurable"` mapping, or its `"configurable"` mapping contains no key
matching any declared field-spec id, `_prepare` returns the original
bound unit itself, not a rebuilt copy. -/
theorem fields_prepare_identity_no_match
    (self : RunnableConfigurableFields) (config : Option RunnableConfig) :
    (config = Option.none → self._prepare config = self.bound) ∧
    ((config.getD emptyConfig).configurable = Option.none →
      self._prepare config = self.bound) ∧
    ((∀ kv ∈ configurableOf config, ∀ p ∈ self.fields,
        (p : String × ConfigurableField).2.id ≠ (kv : String × PyVal).1) →
      self._prepare config = self.bound) := by
  have key : (∀ kv ∈ configurableOf config, ∀ p ∈ self.fields,
      (p : String × ConfigurableField).2.id ≠ (kv : String × PyVal).1) →
      self._prepare config = self.bound := by
    intro h
    have hmo : matchedOverridesAux (specsById self.fields) []
        (configurableOf config) = [] :=
      matchedOverridesAux_of_no_match (specsById self.fields)
        (configurableOf config) []
        (fun kv hkv => specsById_get_none self.fields kv.1
          (fun p hp => h kv hkv p hp))
    simp [RunnableConfigurableFields._prepare, matchedOverrides, hmo]
  refine ⟨?_, ?_, key⟩
  · intro h
    subst h
    refine key ?_
    intro kv hkv
    simp [configurableOf, emptyConfig] at hkv
  · intro h
    refine key ?_
    intro kv hkv
    simp [configurableOf, h] at hkv

/-- Witness for C5: a config carrying only the unrelated key `"engine"`
leaves the concrete fields resolver's bound unit untouched. -/
theorem fields_prepare_identity_no_match_app :
    fieldsEx._prepare (some cfgFast) = fieldsEx.bound :=
  (fields_prepare_identity_no_match fieldsEx (some cfgFast)).2.2 (by decide)

/-- Claim C6: for a fields resolver whose config's `"configurable"`
mapping matches at least one declared field-spec id, the resolved unit is
rebuilt from the bound unit's full attribute dict with exactly the matched
fields replaced by their configured values, and every field not named by a
matched spec keeps the bound unit's current value (given the external
rebuild contract that the constructor stores the attribute dict it is
given). -/
theorem fields_prepare_rebuild_override
    (self : RunnableConfigurableFields) (config : Option RunnableConfig)
    (hcls : ∀ m, (self.cls m).attrs = m)
    (hne : ∃ kv ∈ configurableOf config, ∃ p ∈ self.fields,
      (p : String × ConfigurableField).2.id = (kv : String × PyVal).1) :
    self._prepare config =
      self.cls (dictMerge self.bound.attrs
        (matchedOverrides self.fields (configurableOf config))) ∧
    (∀ f v, dictGet (matchedOverrides self.fields (configurableOf config)) f
        = some v → dictGet (self._prepare config).attrs f = some v) ∧
    (∀ f, dictGet (matchedOverrides self.fields (configurableOf config)) f
        = Option.none →
      dictGet (self._prepare config).attrs f = dictGet self.bound.attrs f) := by
  obtain ⟨kv, hkv, p, hp, hid⟩ := hne
  have hmo_ne : matchedOverrides self.fields (configurableOf config) ≠ [] :=
    matchedOverridesAux_ne_nil (specsById self.fields) (configurableOf config)
      [] (Or.inr ⟨kv, hkv, specsById_mem_isSome self.fields kv.1 ⟨p, hp, hid⟩⟩)
  have hnd : NodupKeys (matchedOverrides self.fields (configurableOf config)) :=
    nodupKeys_matchedOverridesAux (specsById self.fields)
      (configurableOf config) [] (by simp [NodupKeys, dictKeys])
  have hpre : self._prepare config =
      self.cls (dictMerge self.bound.attrs
        (matchedOverrides self.fields (configurableOf config))) := by
    simp only [RunnableConfigurableFields._prepare]
    cases hmo : matchedOverrides self.fields (configurableOf config) with
    | nil => exact absurd hmo hmo_ne
    | cons a as => rfl
  refine ⟨hpre, ?_, ?_⟩
  · intro f v hf
    rw [hpre, hcls]
    exact dictGet_merge_of_some self.bound.attrs _ f v hnd hf
  · intro f hf
    rw [hpre, hcls]
    exact dictGet_merge_of_none self.bound.attrs _ f hf

/-- Witness for C6: configuring `temperature` to `9` on the concrete
fields resolver yields a rebuilt unit whose `temperature` attribute is
`9`. -/
theorem fields_prepare_rebuild_override_app :
    dictGet (fieldsEx._prepare (some cfgTemp)).attrs "temperature"
      = some (PyVal.int 9) :=
  (fields_prepare_rebuild_override fieldsEx (some cfgTemp) (fun _ => rfl)
    ⟨("temperature", PyVal.int 9), by decide⟩).2.1
    "temperature" (PyVal.int 9) rfl

/-- Claim C7: for both resolver variants, keys in the `"configurable"`
mapping that match no declared field-spec id (respectively, that are not
the selector's id) never cause resolution to raise: resolution produces
the same outcome as when those keys are absent. -/
theorem prepare_ignores_unrecognized_keys :
    (∀ (self : RunnableConfigurableFields) (config : Option RunnableConfig),
      self._prepare config = self._prepare
        (restrictConfigurable
          (fun k => (dictGet (specsById self.fields) k).isSome) config)) ∧
    (∀ (self : RunnableConfigurableAlternatives)
        (config : Option RunnableConfig),
      self._prepare config = self._prepare
        (restrictConfigurable (fun k => k == self.which.id) config)) := by
  constructor
  · intro self config
    have hconf : configurableOf (restrictConfigurable
        (fun k => (dictGet (specsById self.fields) k).isSome) config) =
        (configurableOf config).filter
          (fun kv => (dictGet (specsById self.fields) kv.1).isSome) := rfl
    simp only [RunnableConfigurableFields._prepare, matchedOverrides, hconf,
      matchedOverridesAux_filter]
  · intro self config
    have hsel : selectorValue self (restrictConfigurable
        (fun k => k == self.which.id) config) = selectorValue self config := by
      show dictGet ((configurableOf config).filter
          (fun kv => kv.1 == self.which.id)) self.which.id =
        dictGet (configurableOf config) self.which.id
      exact dictGet_filter_key (configurableOf config) self.which.id
    simp only [RunnableConfigurableAlternatives._prepare, hsel]

/-! ### Claims about `DynamicRunnable.batch` -/

/-- Claim C2: if every resolved unit is identical (same object id) to the
bound unit, `batch` delegates the entire call — inputs, original config
argument and `return_exceptions` flag — to the bound unit's own batch
primitive and returns its result. -/
theorem batch_fast_path_delegates (self : DynamicRunnable)
    (inputs : List PyVal) (config : BatchConfigArg) (re : Bool)
    (configs : List RunnableConfig) (prepared : List ExecUnit)
    (h1 : get_config_list config inputs.length = Except.ok configs)
    (h2 : prepareAll self._prepare configs = Except.ok prepared)
    (h3 : prepared.all (fun p => p.oid == self.bound.oid) = true) :
    self.batch inputs config re = self.bound.batchRun inputs config re := by
  simp [DynamicRunnable.batch, h1, h2, h3]

/-- Witness for C2: a config that selects nothing resolves to the bound
unit, and the concrete batch call delegates to its batch primitive. -/
theorem batch_fast_path_delegates_app :
    dynAlt.batch [PyVal.int 5] (BatchConfigArg.one emptyConfig) false =
      dynAlt.bound.batchRun [PyVal.int 5] (BatchConfigArg.one emptyConfig)
        false :=
  batch_fast_path_delegates dynAlt [PyVal.int 5]
    (BatchConfigArg.one emptyConfig) false [emptyConfig] [unitC] rfl rfl rfl

/-- Claim C3: on the fallback path (broadcast succeeded, every resolution
succeeded, at least one resolved unit differs by identity from the bound
unit, inputs non-empty) `batch` yields one result per input in input
order, position i being exactly what `invoke(x_i, c_i)` produces
individually: with `return_exceptions` a failing position holds the
captured exception and every other position its computed value; without
it the individual results are sequenced, the first failure aborting. -/
theorem batch_fallback_positional (self : DynamicRunnable)
    (inputs : List PyVal) (config : BatchConfigArg)
    (configs : List RunnableConfig) (prepared : List ExecUnit)
    (h1 : get_config_list config inputs.length = Except.ok configs)
    (h2 : prepareAll self._prepare configs = Except.ok prepared)
    (h3 : prepared.all (fun p => p.oid == self.bound.oid) = false)
    (h4 : inputs ≠ []) :
    self.batch inputs config true =
      Except.ok ((inputs.zip configs).map
        (fun pc => captureItem (self.invoke pc.1 (some pc.2)))) ∧
    ((inputs.zip configs).map
        (fun pc => captureItem (self.invoke pc.1 (some pc.2)))).length
      = inputs.length ∧
    self.batch inputs config false =
      individualInvokeSeq self (inputs.zip configs) := by
  have hlen : configs.length = inputs.length :=
    get_config_list_length config inputs.length configs h1
  have hmain := invokeAll_eq_individual self configs prepared inputs h2
  have hempty : inputs.isEmpty = false := by
    cases inputs with
    | nil => exact absurd rfl h4
    | cons x xs => rfl
  have hbatch : ∀ re, self.batch inputs config re =
      invokeAll re prepared inputs configs := by
    intro re
    simp [DynamicRunnable.batch, h1, h2, h3, hempty]
  refine ⟨?_, ?_, ?_⟩
  · rw [hbatch true, hmain.1]
  · rw [List.length_map, List.length_zip, hlen, Nat.min_self]
  · rw [hbatch false, hmain.2]

/-- Witness for C3: a three-input batch whose middle config selects the
`"fast"` alternative takes the fallback path and returns the three
individual results in input order. -/
theorem batch_fallback_positional_app :
    dynAlt.batch [PyVal.int 1, PyVal.int 2, PyVal.int 3]
      (BatchConfigArg.many [emptyConfig, cfgFast, emptyConfig]) true =
    Except.ok [BatchItem.val (PyVal.int 1), BatchItem.val (PyVal.str "A"),
      BatchItem.val (PyVal.int 3)] := by
  have h := (batch_fallback_positional dynAlt
    [PyVal.int 1, PyVal.int 2, PyVal.int 3]
    (BatchConfigArg.many [emptyConfig, cfgFast, emptyConfig])
    [emptyConfig, cfgFast, emptyConfig] [unitC, unitA, unitC]
    rfl rfl rfl (by decide)).1
  rw [h]
  rfl

/-- Counterexample to claim C4 as stated: with `return_exceptions = true`,
a batch whose second config selects the unregistered alternative `"bogus"`
aborts with the resolution error instead of capturing it as the second
item of a result list. -/
theorem batch_resolution_error_not_captured_cex :
    dynAlt.batch [PyVal.int 1, PyVal.int 2]
      (BatchConfigArg.many [emptyConfig, cfgBogus]) true =
    Except.error (PyErr.mk "Unknown alternative: bogus") := rfl

/-- Claim C4 (amended): a resolution failure (such as an unrecognized
alternative selector value) inside a batch call aborts the whole call
with that error even when `return_exceptions` is true; the flag captures
only failures raised by the resolved units' own invocations. -/
theorem batch_resolution_error_aborts (self : DynamicRunnable)
    (inputs : List PyVal) (config : BatchConfigArg) (re : Bool)
    (configs : List RunnableConfig) (e : PyErr)
    (h1 : get_config_list config inputs.length = Except.ok configs)
    (h2 : prepareAll self._prepare configs = Except.error e) :
    self.batch inputs config re = Except.error e := by
  simp [DynamicRunnable.batch, h1, h2]

/-- Witness for C4 (amended): the concrete single-input batch with an
unrecognized selector aborts with the resolution error despite
`return_exceptions = true`. -/
theorem batch_resolution_error_aborts_app :
    dynAlt.batch [PyVal.int 7] (BatchConfigArg.many [cfgBogus]) true =
      Except.error (PyErr.mk "Unknown alternative: bogus") :=
  batch_resolution_error_aborts dynAlt [PyVal.int 7]
    (BatchConfigArg.many [cfgBogus]) true [cfgBogus]
    (PyErr.mk "Unknown alternative: bogus") rfl rfl

/-- Counterexample to claim C8 as stated: `batch` on an empty input list
with a one-element list config raises the broadcast length-mismatch error
instead of returning an empty sequence without validating the config. -/
theorem batch_empty_validates_config_cex :
    dynAlt.batch [] (BatchConfigArg.many [cfgFast]) false =
      Except.error (configLengthErr 1 0) := rfl

/-- Claim C8 (amended): `batch` on an empty input list first broadcasts
and validates the config argument — a non-empty list config is a
length-mismatch error — and otherwise returns through the fast path,
delegating the empty call to the bound unit's own batch primitive (the
dedicated empty-input early return is unreachable). -/
theorem batch_empty_fast_path (self : DynamicRunnable) (re : Bool) :
    (∀ c, self.batch [] (BatchConfigArg.one c) re =
        self.bound.batchRun [] (BatchConfigArg.one c) re) ∧
    (self.batch [] BatchConfigArg.noConfig re =
        self.bound.batchRun [] BatchConfigArg.noConfig re) ∧
    (self.batch [] (BatchConfigArg.many []) re =
        self.bound.batchRun [] (BatchConfigArg.many []) re) ∧
    (∀ cs : List RunnableConfig, cs ≠ [] →
        self.batch [] (BatchConfigArg.many cs) re =
          Except.error (configLengthErr cs.length 0)) := by
  refine ⟨fun c => rfl, rfl, rfl, fun cs hcs => ?_⟩
  have hl : cs.length ≠ 0 := by
    cases cs with
    | nil => exact absurd rfl hcs
    | cons a as => simp
  simp [DynamicRunnable.batch, get_config_list, hl]

/-- Witness for C8 (amended): the concrete empty batch with a one-element
list config raises the length-mismatch error. -/
theorem batch_empty_fast_path_app :
    dynAlt.batch [] (BatchConfigArg.many [emptyConfig]) true =
      Except.error (configLengthErr 1 0) :=
  (batch_empty_fast_path dynAlt true).2.2.2 [emptyConfig] (by decide)

/-- Claim C9: the alternatives resolver's `config_specs` is exactly, in
order, the selector's own spec (value space the registered alternative
keys plus the literal `"default"`, defaulting to `"default"`), then the
bound unit's own config specs, then each alternative's config specs in
registration order; hence its length is 1 plus the bound unit's spec
count plus the sum of every alternative's spec count. -/
theorem alternatives_config_specs_shape
    (self : RunnableConfigurableAlternatives) :
    self.config_specs =
      { id := self.which.id
        name := self.which.name
        description := self.which.description
        annotation :=
          some (PyAnnot.union (dictKeys self.alternatives ++ ["default"]))
        default := PyVal.str "default" }
      :: (self.bound.config_specs
        ++ joinSpecs (self.alternatives.map Prod.snd)) ∧
    self.config_specs.length =
      1 + self.bound.config_specs.length +
        ((self.alternatives.map Prod.snd).map
          (fun u => u.config_specs.length)).sum := by
  constructor
  · rfl
  · simp only [RunnableConfigurableAlternatives.config_specs,
      List.length_append, List.length_cons, joinSpecs_length]
    omega

end Configurable
